import Mathlib

/-!
# Brick Breaker: the per-frame simulation of `src/main.cpp`

A shallow embedding of the game loop of `main.cpp` (lines 143-191, together with
`processInput`, lines 236-246, and the brick initialisation, lines 80-101).

* The C++ globals (`paddleX`, `ballX`, `ballY`, `ballSpeedX`, `ballSpeedY`, `hitCount`,
  `bricks`, `gameOver`) become the fields of `GameState`.
* `float` quantities are modelled as exact rationals (`ℚ`): every statement below is a
  statement in exact arithmetic, rounding is not modelled.
* `hitCount` is a C++ `int`; it is an `Int` here and the increment wraps at 32 bits.
* The two mouse buttons polled by `processInput` are the booleans `mouseLeft`, `mouseRight`.
* Rendering reads the state and never writes it, so it is left out.
-/

namespace BrickBreaker

/-! ## Data model -/

/-- The `struct Brick` of `main.cpp`: centre, alive flag and colour. -/
structure Brick where
  x : ℚ
  y : ℚ
  alive : Bool
  r : ℚ
  g : ℚ
  b : ℚ
deriving DecidableEq

/-- The mutable globals of `main.cpp`. -/
structure GameState where
  paddleX : ℚ
  ballX : ℚ
  ballY : ℚ
  ballSpeedX : ℚ
  ballSpeedY : ℚ
  hitCount : Int
  bricks : List Brick
  gameOver : Bool
deriving DecidableEq

/-- `const float SPEED_INCREASE_FACTOR = 1.40f`. -/
def SPEED_INCREASE_FACTOR : ℚ := 1.40

/-- `const float paddleWidth = 0.25f`. -/
def paddleWidth : ℚ := 0.25

/-- `const float ballRadius = 0.05f`. -/
def ballRadius : ℚ := 0.05

/-- `const float paddleSpeed = 1.2f` (local to `processInput`). -/
def paddleSpeed : ℚ := 1.2

/-- Two's-complement wrap-around of a 32-bit `int`. Signed overflow is undefined in C++;
the embedding fixes the wrap-around, and the statements about `hitCount++` assume
`hitCount < INT_MAX`, where the increment is defined. -/
def wrapInt32 (n : Int) : Int := (n + 2147483648) % 4294967296 - 2147483648

/-! ## Brick initialisation (lines 80-101) -/

/-- The body of the inner initialisation loop: the brick of a row and a column. -/
def mkBrick (row col : Nat) : Brick :=
  { x := -0.9 + (col : ℚ) * 0.18
    y := 0.8 - (row : ℚ) * 0.15
    alive := true
    r := 0.2
    g := if row = 0 then 0.6 else 1.0
    b := if row = 0 then 1.0 else 0.6 }

/-- The inner loop `for (col = 0; col < 10; col++) bricks.push_back(brick)`. -/
def initRow (row : Nat) (bricks : List Brick) : List Brick :=
  (List.range 10).foldl (fun acc col => acc ++ [mkBrick row col]) bricks

/-- The outer loop `for (row = 0; row < 2; row++)`, starting from the empty vector. -/
def initBricks : List Brick :=
  (List.range 2).foldl (fun acc row => initRow row acc) []

/-- The state of the globals when the game loop is entered. -/
def initState : GameState :=
  { paddleX := 0.0
    ballX := 0.0
    ballY := 0.0
    ballSpeedX := 0.18 * 1.6
    ballSpeedY := 0.22 * 1.6
    hitCount := 0
    bricks := initBricks
    gameOver := false }

/-! ## One frame of the game loop -/

/-- The function `processInput` (lines 236-246): move the paddle, then clamp it. -/
def processInput (mouseLeft mouseRight : Bool) (deltaTime : ℚ) (s : GameState) : GameState :=
  let p1 := if mouseLeft then s.paddleX - paddleSpeed * deltaTime else s.paddleX
  let p2 := if mouseRight then p1 + paddleSpeed * deltaTime else p1
  let p3 := if p2 < -1.0 + paddleWidth / 2 then -1.0 + paddleWidth / 2 else p2
  let p4 := if p3 > 1.0 - paddleWidth / 2 then 1.0 - paddleWidth / 2 else p3
  { s with paddleX := p4 }

/-- Lines 153-154: `ballX += ballSpeedX * deltaTime; ballY += ballSpeedY * deltaTime`. -/
def updateBall (deltaTime : ℚ) (s : GameState) : GameState :=
  { s with ballX := s.ballX + s.ballSpeedX * deltaTime
           ballY := s.ballY + s.ballSpeedY * deltaTime }

/-- Lines 157-158: the side walls flip `ballSpeedX`, the top wall flips `ballSpeedY`. -/
def wallCollisions (s : GameState) : GameState :=
  let vx := if s.ballX < -0.95 ∨ s.ballX > 0.95 then s.ballSpeedX * -1 else s.ballSpeedX
  let vy := if s.ballY > 0.95 then s.ballSpeedY * -1 else s.ballSpeedY
  { s with ballSpeedX := vx, ballSpeedY := vy }

/-- Lines 161-166: the ground check sets `gameOver` and zeroes the velocity. -/
def groundCollision (s : GameState) : GameState :=
  if s.ballY - ballRadius ≤ -1.0 then
    { s with gameOver := true, ballSpeedX := 0.0, ballSpeedY := 0.0 }
  else s

/-- The condition of the paddle collision at line 169. -/
def paddleHit (s : GameState) : Prop :=
  s.ballY < -0.8 ∧ s.ballX > s.paddleX - paddleWidth / 2 ∧ s.ballX < s.paddleX + paddleWidth / 2

instance (s : GameState) : Decidable (paddleHit s) := by
  unfold paddleHit; infer_instance

/-- Lines 169-177: the paddle collision; `hitCount++` is the 32-bit increment and the
test `hitCount <= 10` reads the incremented counter. -/
def paddleCollision (s : GameState) : GameState :=
  if paddleHit s then
    let vy := |s.ballSpeedY|
    let vx := (s.ballX - s.paddleX) * 2.0
    let hc := wrapInt32 (s.hitCount + 1)
    if hc ≤ 10 then
      { s with ballSpeedY := vy * SPEED_INCREASE_FACTOR
               ballSpeedX := vx * SPEED_INCREASE_FACTOR
               hitCount := hc }
    else
      { s with ballSpeedY := vy, ballSpeedX := vx, hitCount := hc }
  else s

/-- Lines 182-185: the ball centre lies strictly inside the box of a brick
(half-extents `0.08` and `0.05` around the brick's centre). -/
def inBox (ballX ballY : ℚ) (brick : Brick) : Prop :=
  ballX > brick.x - 0.08 ∧ ballX < brick.x + 0.08 ∧
    ballY > brick.y - 0.05 ∧ ballY < brick.y + 0.05

instance (ballX ballY : ℚ) (brick : Brick) : Decidable (inBox ballX ballY brick) := by
  unfold inBox; infer_instance

/-- The condition of the brick loop at lines 181-185: the brick is alive and the ball
centre lies strictly inside its box. -/
def brickHit (ballX ballY : ℚ) (brick : Brick) : Prop :=
  brick.alive = true ∧ inBox ballX ballY brick

instance (ballX ballY : ℚ) (brick : Brick) : Decidable (brickHit ballX ballY brick) := by
  unfold brickHit; infer_instance

/-- The loop of lines 180-190 over the bricks that are still to be visited, threading
`ballSpeedY`: the first brick that is hit dies, `ballSpeedY` flips, and the loop breaks. -/
def brickLoop (ballX ballY : ℚ) : List Brick → ℚ → List Brick × ℚ
  | [], vy => ([], vy)
  | brick :: rest, vy =>
    if brickHit ballX ballY brick then
      ({ brick with alive := false } :: rest, vy * -1)
    else
      let res := brickLoop ballX ballY rest vy
      (brick :: res.1, res.2)

/-- Lines 180-190: the brick collisions. -/
def brickCollisions (s : GameState) : GameState :=
  let res := brickLoop s.ballX s.ballY s.bricks s.ballSpeedY
  { s with bricks := res.1, ballSpeedY := res.2 }

/-- The sub-steps of the guarded block that run before the brick loop (lines 153-177). -/
def beforeBricks (deltaTime : ℚ) (s : GameState) : GameState :=
  paddleCollision (groundCollision (wallCollisions (updateBall deltaTime s)))

/-- One iteration of the game loop (lines 148-191): `processInput`, then the physics
guarded by `if (!gameOver)`. -/
def step (mouseLeft mouseRight : Bool) (deltaTime : ℚ) (s : GameState) : GameState :=
  let s1 := processInput mouseLeft mouseRight deltaTime s
  if s1.gameOver = false then brickCollisions (beforeBricks deltaTime s1) else s1

/-- The input of one frame: the two mouse buttons and `deltaTime`. -/
structure Frame where
  mouseLeft : Bool
  mouseRight : Bool
  deltaTime : ℚ

/-- The game loop over a finite sequence of frames. -/
def run : List Frame → GameState → GameState
  | [], s => s
  | f :: fs, s => run fs (step f.mouseLeft f.mouseRight f.deltaTime s)

/-! ## Predicates used to state the properties -/

/-- The centre of a brick. -/
def centre (b : Brick) : ℚ × ℚ := (b.x, b.y)


/-- In the frame `f` no alive brick of `s` contains the ball centre after the motion. -/
def noBrickOverlap (f : Frame) (s : GameState) : Prop :=
  ∀ b ∈ s.bricks,
    ¬ brickHit (s.ballX + s.ballSpeedX * f.deltaTime) (s.ballY + s.ballSpeedY * f.deltaTime) b

/-- Along the run of the frames `fs` from `s`, every frame whose physics runs has no
overlap between the ball and an alive brick. -/
def noOverlapAlong : List Frame → GameState → Prop
  | [], _ => True
  | f :: fs, s =>
    (s.gameOver = false → noBrickOverlap f s) ∧
      noOverlapAlong fs (step f.mouseLeft f.mouseRight f.deltaTime s)

/-! ## Concrete states -/

/-- A ball just above the floor, to the right of the paddle's reach, falling: the frame
`step false true 0.02` moves the paddle under it while it reaches the floor. -/
def floorState : GameState :=
  { paddleX := 0.0
    ballX := 0.13
    ballY := -0.945
    ballSpeedX := 0.0
    ballSpeedY := -0.5
    hitCount := 0
    bricks := initBricks
    gameOver := false }

/-- The paddle scenario of the specification: ball at `(0.0, -0.79)` above a paddle at
`0.0`, moving straight down at `-0.3`, no paddle hit so far. -/
def paddleScenario : GameState :=
  { paddleX := 0.0
    ballX := 0.0
    ballY := -0.79
    ballSpeedX := 0.0
    ballSpeedY := -0.3
    hitCount := 0
    bricks := initBricks
    gameOver := false }

/-- A ball below the paddle line with no vertical speed, sliding towards the paddle. -/
def slidingState : GameState :=
  { paddleX := 0.0
    ballX := 0.2
    ballY := -0.85
    ballSpeedX := -0.5
    ballSpeedY := 0.0
    hitCount := 0
    bricks := initBricks
    gameOver := false }

/-- A ball that has just bounced off the left wall: still left of `-0.95`, moving right. -/
def leavingWallState : GameState :=
  { paddleX := 0.0
    ballX := -0.96
    ballY := 0.0
    ballSpeedX := 0.5
    ballSpeedY := -0.1
    hitCount := 0
    bricks := initBricks
    gameOver := false }

/-- A ball right of `0.95` that reaches the floor in the frame `step false false 0.02`. -/
def wallFloorState : GameState :=
  { paddleX := 0.0
    ballX := 0.96
    ballY := -0.94
    ballSpeedX := 0.1
    ballSpeedY := -0.5
    hitCount := 0
    bricks := initBricks
    gameOver := false }

/-- A ball left of `-0.95` that comes down on a paddle parked at the left limit. -/
def wallPaddleState : GameState :=
  { paddleX := -0.875
    ballX := -0.96
    ballY := -0.79
    ballSpeedX := -0.1
    ballSpeedY := -0.5
    hitCount := 0
    bricks := initBricks
    gameOver := false }

/-- A ball in mid-air about to cross the right wall line. -/
def wallHitState : GameState :=
  { paddleX := 0.0
    ballX := 0.94
    ballY := 0.0
    ballSpeedX := 0.5
    ballSpeedY := -0.1
    hitCount := 0
    bricks := initBricks
    gameOver := false }

/-- A ball rising into the box of the brick of row 1, column 5. -/
def brickState : GameState :=
  { paddleX := 0.0
    ballX := 0.0
    ballY := 0.6
    ballSpeedX := 0.288
    ballSpeedY := 0.352
    hitCount := 0
    bricks := initBricks
    gameOver := false }

/-- A game that is over: the ball lies on the floor. -/
def overState : GameState :=
  { paddleX := 0.0
    ballX := 0.5
    ballY := -0.96
    ballSpeedX := 0.0
    ballSpeedY := 0.0
    hitCount := 3
    bricks := initBricks
    gameOver := true }

/-! ## Frame lemmas: which sub-step writes which global -/

@[simp]
theorem processInput_ballX (l r : Bool) (dt : ℚ) (s : GameState) :
    (processInput l r dt s).ballX = s.ballX := rfl
@[simp]
theorem processInput_ballY (l r : Bool) (dt : ℚ) (s : GameState) :
    (processInput l r dt s).ballY = s.ballY := rfl
@[simp]
theorem processInput_ballSpeedX (l r : Bool) (dt : ℚ) (s : GameState) :
    (processInput l r dt s).ballSpeedX = s.ballSpeedX := rfl
@[simp]
theorem processInput_ballSpeedY (l r : Bool) (dt : ℚ) (s : GameState) :
    (processInput l r dt s).ballSpeedY = s.ballSpeedY := rfl
@[simp]
theorem processInput_hitCount (l r : Bool) (dt : ℚ) (s : GameState) :
    (processInput l r dt s).hitCount = s.hitCount := rfl
@[simp]
theorem processInput_bricks (l r : Bool) (dt : ℚ) (s : GameState) :
    (processInput l r dt s).bricks = s.bricks := rfl
@[simp]
theorem processInput_gameOver (l r : Bool) (dt : ℚ) (s : GameState) :
    (processInput l r dt s).gameOver = s.gameOver := rfl

@[simp]
theorem brickCollisions_paddleX (s : GameState) :
    (brickCollisions s).paddleX = s.paddleX := rfl
@[simp]
theorem brickCollisions_ballX (s : GameState) :
    (brickCollisions s).ballX = s.ballX := rfl
@[simp]
theorem brickCollisions_ballY (s : GameState) :
    (brickCollisions s).ballY = s.ballY := rfl
@[simp]
theorem brickCollisions_ballSpeedX (s : GameState) :
    (brickCollisions s).ballSpeedX = s.ballSpeedX := rfl
@[simp]
theorem brickCollisions_hitCount (s : GameState) :
    (brickCollisions s).hitCount = s.hitCount := rfl
@[simp]
theorem brickCollisions_gameOver (s : GameState) :
    (brickCollisions s).gameOver = s.gameOver := rfl

theorem paddleCollision_paddleX (s : GameState) : (paddleCollision s).paddleX = s.paddleX := by
  unfold paddleCollision; dsimp only; split_ifs <;> rfl
theorem paddleCollision_ballX (s : GameState) : (paddleCollision s).ballX = s.ballX := by
  unfold paddleCollision; dsimp only; split_ifs <;> rfl
theorem paddleCollision_ballY (s : GameState) : (paddleCollision s).ballY = s.ballY := by
  unfold paddleCollision; dsimp only; split_ifs <;> rfl
theorem paddleCollision_bricks (s : GameState) : (paddleCollision s).bricks = s.bricks := by
  unfold paddleCollision; dsimp only; split_ifs <;> rfl
theorem paddleCollision_gameOver (s : GameState) : (paddleCollision s).gameOver = s.gameOver := by
  unfold paddleCollision; dsimp only; split_ifs <;> rfl

theorem groundCollision_paddleX (s : GameState) : (groundCollision s).paddleX = s.paddleX := by
  unfold groundCollision; split_ifs <;> rfl
theorem groundCollision_ballX (s : GameState) : (groundCollision s).ballX = s.ballX := by
  unfold groundCollision; split_ifs <;> rfl
theorem groundCollision_ballY (s : GameState) : (groundCollision s).ballY = s.ballY := by
  unfold groundCollision; split_ifs <;> rfl
theorem groundCollision_bricks (s : GameState) : (groundCollision s).bricks = s.bricks := by
  unfold groundCollision; split_ifs <;> rfl
theorem groundCollision_hitCount (s : GameState) : (groundCollision s).hitCount = s.hitCount := by
  unfold groundCollision; split_ifs <;> rfl

theorem beforeBricks_paddleX (dt : ℚ) (s : GameState) :
    (beforeBricks dt s).paddleX = s.paddleX := by
  simp [beforeBricks, paddleCollision_paddleX, groundCollision_paddleX, wallCollisions,
    updateBall]

theorem beforeBricks_ballX (dt : ℚ) (s : GameState) :
    (beforeBricks dt s).ballX = s.ballX + s.ballSpeedX * dt := by
  simp [beforeBricks, paddleCollision_ballX, groundCollision_ballX, wallCollisions,
    updateBall]

theorem beforeBricks_ballY (dt : ℚ) (s : GameState) :
    (beforeBricks dt s).ballY = s.ballY + s.ballSpeedY * dt := by
  simp [beforeBricks, paddleCollision_ballY, groundCollision_ballY, wallCollisions,
    updateBall]

theorem beforeBricks_bricks (dt : ℚ) (s : GameState) :
    (beforeBricks dt s).bricks = s.bricks := by
  simp [beforeBricks, paddleCollision_bricks, groundCollision_bricks, wallCollisions,
    updateBall]

theorem beforeBricks_gameOver (dt : ℚ) (s : GameState) :
    (beforeBricks dt s).gameOver =
      if s.ballY + s.ballSpeedY * dt - ballRadius ≤ -1.0 then true else s.gameOver := by
  simp only [beforeBricks, paddleCollision_gameOver]
  unfold groundCollision
  simp only [wallCollisions, updateBall]
  split_ifs <;> rfl

theorem step_paddleX (l r : Bool) (dt : ℚ) (s : GameState) :
    (step l r dt s).paddleX = (processInput l r dt s).paddleX := by
  unfold step
  dsimp only
  split_ifs
  · simp [beforeBricks_paddleX]
  · rfl

theorem step_of_gameOver (l r : Bool) (dt : ℚ) (s : GameState) (h : s.gameOver = true) :
    step l r dt s = processInput l r dt s := by
  simp [step, h]

theorem step_of_playing (l r : Bool) (dt : ℚ) (s : GameState) (h : s.gameOver = false) :
    step l r dt s = brickCollisions (beforeBricks dt (processInput l r dt s)) := by
  simp [step, h]

theorem step_gameOver (l r : Bool) (dt : ℚ) (s : GameState) :
    (step l r dt s).gameOver =
      if s.gameOver = true then true
      else if s.ballY + s.ballSpeedY * dt - ballRadius ≤ -1.0 then true else false := by
  cases h : s.gameOver
  · rw [step_of_playing l r dt s h]
    simp [beforeBricks_gameOver, h]
  · rw [step_of_gameOver l r dt s h]
    simp [h]

theorem run_gameOver (fs : List Frame) (s : GameState) (h : s.gameOver = true) :
    (run fs s).gameOver = true := by
  induction fs generalizing s with
  | nil => exact h
  | cons f fs ih =>
    apply ih
    rw [step_gameOver]; simp [h]

/-! ## The brick loop -/

theorem brickLoop_miss (bx bY : ℚ) (bs : List Brick) (vy : ℚ)
    (h : ∀ b ∈ bs, ¬ brickHit bx bY b) : brickLoop bx bY bs vy = (bs, vy) := by
  induction bs with
  | nil => rfl
  | cons b rest ih =>
    have hb : ¬ brickHit bx bY b := h b (List.mem_cons_self _ _)
    have hr : ∀ c ∈ rest, ¬ brickHit bx bY c := fun c hc => h c (List.mem_cons_of_mem _ hc)
    simp [brickLoop, hb, ih hr]

theorem brickLoop_hit (bx bY : ℚ) (bs : List Brick) (vy : ℚ)
    (h : ∃ b ∈ bs, brickHit bx bY b) :
    ∃ pre b post, bs = pre ++ b :: post ∧ (∀ c ∈ pre, ¬ brickHit bx bY c) ∧
      brickHit bx bY b ∧
      brickLoop bx bY bs vy = (pre ++ { b with alive := false } :: post, -vy) := by
  induction bs with
  | nil => simp at h
  | cons a rest ih =>
    by_cases ha : brickHit bx bY a
    · exact ⟨[], a, rest, rfl, by simp, ha, by simp [brickLoop, ha]⟩
    · have hr : ∃ b ∈ rest, brickHit bx bY b := by
        obtain ⟨b, hb, hhit⟩ := h
        rcases List.mem_cons.mp hb with rfl | hb
        · exact absurd hhit ha
        · exact ⟨b, hb, hhit⟩
      obtain ⟨pre, b, post, hbs, hpre, hb, hloop⟩ := ih hr
      refine ⟨a :: pre, b, post, by simp [hbs], ?_, hb, ?_⟩
      · intro c hc
        rcases List.mem_cons.mp hc with rfl | hc
        · exact ha
        · exact hpre c hc
      · simp [brickLoop, ha, hloop]

/-- The brick loop either leaves the list alone or kills one alive brick. -/
theorem brickLoop_cases (bx bY : ℚ) (bs : List Brick) (vy : ℚ) :
    (brickLoop bx bY bs vy).1 = bs ∨
      ∃ pre b post, bs = pre ++ b :: post ∧ b.alive = true ∧
        (brickLoop bx bY bs vy).1 = pre ++ { b with alive := false } :: post := by
  by_cases h : ∃ b ∈ bs, brickHit bx bY b
  · obtain ⟨pre, b, post, hbs, _, hb, hloop⟩ := brickLoop_hit bx bY bs vy h
    exact Or.inr ⟨pre, b, post, hbs, hb.1, by rw [hloop]⟩
  · left
    rw [brickLoop_miss]
    intro b hb hhit
    exact h ⟨b, hb, hhit⟩

theorem getElem?_append_cons_ne {α : Type} (pre post : List α) (a b : α) (i : Nat)
    (h : (pre ++ a :: post)[i]? ≠ (pre ++ b :: post)[i]?) : i = pre.length := by
  induction pre generalizing i with
  | nil =>
    cases i with
    | zero => rfl
    | succ n => simp at h
  | cons c pre ih =>
    cases i with
    | zero => simp at h
    | succ n =>
      simp only [List.cons_append, List.getElem?_cons_succ] at h
      simp [ih n h]

theorem getElem?_append_cons_length {α : Type} (pre post : List α) (a : α) :
    (pre ++ a :: post)[pre.length]? = some a := by
  induction pre with
  | nil => simp
  | cons c pre ih => simpa using ih

theorem step_bricks_cases (l r : Bool) (dt : ℚ) (s : GameState) :
    (step l r dt s).bricks = s.bricks ∨
      ∃ pre b post, s.bricks = pre ++ b :: post ∧ b.alive = true ∧
        (step l r dt s).bricks = pre ++ { b with alive := false } :: post := by
  cases h : s.gameOver
  · rw [step_of_playing l r dt s h]
    have := brickLoop_cases (beforeBricks dt (processInput l r dt s)).ballX
      (beforeBricks dt (processInput l r dt s)).ballY s.bricks
      (beforeBricks dt (processInput l r dt s)).ballSpeedY
    simpa [brickCollisions, beforeBricks_bricks] using this
  · rw [step_of_gameOver l r dt s h]
    exact Or.inl rfl

/-! ## The paddle -/

/-- C2: whatever the paddle position before the step, whatever the two mouse-button
booleans and whatever `deltaTime` (any sign, any magnitude), the paddle position after one
step lies in `[-1 + paddleWidth/2, 1 - paddleWidth/2] = [-0.875, 0.875]`; with both
buttons pressed the two moves cancel and the paddle is only clamped. -/
theorem C2_paddle_clamp_invariant (mouseLeft mouseRight : Bool) (dt : ℚ) (s : GameState) :
    (-1 + paddleWidth / 2 ≤ (step mouseLeft mouseRight dt s).paddleX ∧
      (step mouseLeft mouseRight dt s).paddleX ≤ 1 - paddleWidth / 2) ∧
    (-0.875 ≤ (step mouseLeft mouseRight dt s).paddleX ∧
      (step mouseLeft mouseRight dt s).paddleX ≤ 0.875) ∧
    (step true true dt s).paddleX =
      (if s.paddleX < -0.875 then -0.875 else if s.paddleX > 0.875 then 0.875
        else s.paddleX) := by
  refine ⟨?_, ?_, ?_⟩
  · rw [step_paddleX]
    simp only [processInput, paddleWidth]
    constructor <;> split_ifs <;> norm_num at * <;> linarith
  · rw [step_paddleX]
    simp only [processInput, paddleWidth]
    constructor <;> split_ifs <;> norm_num at * <;> linarith
  · rw [step_paddleX]
    simp only [processInput, paddleWidth, if_true, sub_add_cancel]
    norm_num
    split_ifs <;> first | rfl | (exfalso; linarith)

/-! ## The game-over flag -/

/-- C4: after a step `gameOver` is true exactly when it was true before the step, or it
was false and the ball position after this step's motion satisfies
`ballY - ballRadius ≤ -1.0`; so only the floor condition leads from Playing to Over and
no step leads back. -/
theorem C4_gameOver_state_machine (mouseLeft mouseRight : Bool) (dt : ℚ) (s : GameState) :
    (step mouseLeft mouseRight dt s).gameOver = true ↔
      (s.gameOver = true ∨
        (s.gameOver = false ∧ s.ballY + s.ballSpeedY * dt - ballRadius ≤ -1.0)) := by
  rw [step_gameOver]
  cases h : s.gameOver <;> simp

/-! ## The ball position -/

/-- C7: while the game is not over and `dt ≥ 0`, the ball position after the whole step
is exactly `(ballX + ballSpeedX * dt, ballY + ballSpeedY * dt)` with the velocity that
entered the step; the wall, floor, paddle and brick sub-steps never write the position. -/
theorem C7_exact_euler_position (mouseLeft mouseRight : Bool) (dt : ℚ) (s : GameState)
    (hplay : s.gameOver = false) (_hdt : 0 ≤ dt) :
    ((step mouseLeft mouseRight dt s).ballX = s.ballX + s.ballSpeedX * dt ∧
      (step mouseLeft mouseRight dt s).ballY = s.ballY + s.ballSpeedY * dt) ∧
    (∀ t : GameState,
      ((wallCollisions t).ballX = t.ballX ∧ (wallCollisions t).ballY = t.ballY) ∧
      ((groundCollision t).ballX = t.ballX ∧ (groundCollision t).ballY = t.ballY) ∧
      ((paddleCollision t).ballX = t.ballX ∧ (paddleCollision t).ballY = t.ballY) ∧
      ((brickCollisions t).ballX = t.ballX ∧ (brickCollisions t).ballY = t.ballY)) := by
  refine ⟨?_, fun t => ⟨⟨rfl, rfl⟩, ⟨groundCollision_ballX t, groundCollision_ballY t⟩,
    ⟨paddleCollision_ballX t, paddleCollision_ballY t⟩, ⟨rfl, rfl⟩⟩⟩
  rw [step_of_playing mouseLeft mouseRight dt s hplay]
  simp [beforeBricks_ballX, beforeBricks_ballY]

/-! ## The Over state -/

/-- C9: in a state with `gameOver = true` a step leaves the ball position, the ball
velocity, every brick, `hitCount` and `gameOver` as they were; only `paddleX` is written,
by the input move and the clamp of `processInput`. -/
theorem C9_over_step_only_moves_paddle (mouseLeft mouseRight : Bool) (dt : ℚ)
    (s : GameState) (hover : s.gameOver = true) :
    step mouseLeft mouseRight dt s =
        { s with paddleX := (processInput mouseLeft mouseRight dt s).paddleX } ∧
      (step mouseLeft mouseRight dt s).ballX = s.ballX ∧
      (step mouseLeft mouseRight dt s).ballY = s.ballY ∧
      (step mouseLeft mouseRight dt s).ballSpeedX = s.ballSpeedX ∧
      (step mouseLeft mouseRight dt s).ballSpeedY = s.ballSpeedY ∧
      (step mouseLeft mouseRight dt s).bricks = s.bricks ∧
      (step mouseLeft mouseRight dt s).hitCount = s.hitCount ∧
      (step mouseLeft mouseRight dt s).gameOver = true := by
  rw [step_of_gameOver mouseLeft mouseRight dt s hover]
  exact ⟨rfl, rfl, rfl, rfl, rfl, rfl, rfl, hover⟩

/-! ## The bricks -/

/-- C5: for every state and brick list (also when several alive bricks contain the ball
centre at once), every input and every `dt`, the brick list after the step either is the
list before the step or differs from it at exactly one brick, which was alive and is now
dead; so the length, the positions and the colours are kept, no flag goes from false to
true, and at most one index changes, from alive to dead. -/
theorem C5_at_most_one_brick_dies (mouseLeft mouseRight : Bool) (dt : ℚ) (s : GameState) :
    ((step mouseLeft mouseRight dt s).bricks = s.bricks ∨
      ∃ pre b post, s.bricks = pre ++ b :: post ∧ b.alive = true ∧
        (step mouseLeft mouseRight dt s).bricks = pre ++ { b with alive := false } :: post) ∧
    (step mouseLeft mouseRight dt s).bricks.length = s.bricks.length ∧
    (step mouseLeft mouseRight dt s).bricks.map (fun b => (b.x, b.y, b.r, b.g, b.b)) =
      s.bricks.map (fun b => (b.x, b.y, b.r, b.g, b.b)) ∧
    (∀ i : Nat, ((step mouseLeft mouseRight dt s).bricks[i]?).map Brick.alive = some true →
      (s.bricks[i]?).map Brick.alive = some true) ∧
    (∀ i : Nat, (step mouseLeft mouseRight dt s).bricks[i]? ≠ s.bricks[i]? →
      (s.bricks[i]?).map Brick.alive = some true ∧
        ((step mouseLeft mouseRight dt s).bricks[i]?).map Brick.alive = some false) ∧
    (∀ i j : Nat, (step mouseLeft mouseRight dt s).bricks[i]? ≠ s.bricks[i]? →
      (step mouseLeft mouseRight dt s).bricks[j]? ≠ s.bricks[j]? → i = j) := by
  have hcases := step_bricks_cases mouseLeft mouseRight dt s
  refine ⟨hcases, ?_⟩
  rcases hcases with h | ⟨pre, b, post, hbs, hb, h⟩
  · rw [h]
    exact ⟨rfl, rfl, fun _ hi => hi, fun _ hi => absurd rfl hi, fun _ _ hi => absurd rfl hi⟩
  · rw [h, hbs]
    have hchanged : ∀ i : Nat,
        (pre ++ { b with alive := false } :: post)[i]? ≠ (pre ++ b :: post)[i]? →
          i = pre.length := fun i hi => getElem?_append_cons_ne pre post _ _ i hi
    refine ⟨by simp, by simp, ?_, ?_, ?_⟩
    · intro i hi
      by_cases hne : (pre ++ { b with alive := false } :: post)[i]? = (pre ++ b :: post)[i]?
      · rw [← hne]; exact hi
      · rw [hchanged i hne, getElem?_append_cons_length] at hi
        simp at hi
    · intro i hne
      rw [hchanged i hne, getElem?_append_cons_length, getElem?_append_cons_length]
      simp [hb]
    · intro i j hi hj
      rw [hchanged i hi, hchanged j hj]

theorem step_of_miss (l r : Bool) (dt : ℚ) (s : GameState) (hplay : s.gameOver = false)
    (hmiss : ∀ b ∈ s.bricks,
      ¬ brickHit (s.ballX + s.ballSpeedX * dt) (s.ballY + s.ballSpeedY * dt) b) :
    step l r dt s = beforeBricks dt (processInput l r dt s) := by
  rw [step_of_playing l r dt s hplay]
  unfold brickCollisions
  rw [brickLoop_miss]
  simpa [beforeBricks_ballX, beforeBricks_ballY, beforeBricks_bricks] using hmiss

theorem run_bricks_of_noOverlap (fs : List Frame) (t : GameState)
    (h : noOverlapAlong fs t) : (run fs t).bricks = t.bricks := by
  induction fs generalizing t with
  | nil => rfl
  | cons f fs ih =>
    obtain ⟨hf, hrest⟩ := h
    rw [run, ih _ hrest]
    cases hover : t.gameOver
    · rw [step_of_miss _ _ _ t hover (hf hover), beforeBricks_bricks]
      rfl
    · rw [step_of_gameOver _ _ _ t hover]
      rfl

/-- C8: the brick scan is first-match in stored order. In a state that is not over, if
some alive brick's box contains the ball centre after the motion, the step kills exactly
the first such brick of the list, leaves every other brick as it was, negates the
`ballSpeedY` the earlier sub-steps produced and keeps their `ballSpeedX`; if no alive
brick's box contains it, the step leaves the bricks as they were and the state is the one
the earlier sub-steps produced (velocity, `hitCount`, `gameOver` untouched by the brick
loop). Over any run of frames without overlap the brick list stays as it was. -/
theorem C8_brick_scan_first_match (mouseLeft mouseRight : Bool) (dt : ℚ) (s : GameState)
    (hplay : s.gameOver = false) :
    ((∃ b ∈ s.bricks,
        brickHit (s.ballX + s.ballSpeedX * dt) (s.ballY + s.ballSpeedY * dt) b) →
      ∃ pre b post, s.bricks = pre ++ b :: post ∧
        (∀ c ∈ pre,
          ¬ brickHit (s.ballX + s.ballSpeedX * dt) (s.ballY + s.ballSpeedY * dt) c) ∧
        brickHit (s.ballX + s.ballSpeedX * dt) (s.ballY + s.ballSpeedY * dt) b ∧
        (step mouseLeft mouseRight dt s).bricks = pre ++ { b with alive := false } :: post ∧
        (step mouseLeft mouseRight dt s).ballSpeedY =
          -(beforeBricks dt (processInput mouseLeft mouseRight dt s)).ballSpeedY ∧
        (step mouseLeft mouseRight dt s).ballSpeedX =
          (beforeBricks dt (processInput mouseLeft mouseRight dt s)).ballSpeedX ∧
        (step mouseLeft mouseRight dt s).hitCount =
          (beforeBricks dt (processInput mouseLeft mouseRight dt s)).hitCount ∧
        (step mouseLeft mouseRight dt s).gameOver =
          (beforeBricks dt (processInput mouseLeft mouseRight dt s)).gameOver) ∧
    ((∀ b ∈ s.bricks,
        ¬ brickHit (s.ballX + s.ballSpeedX * dt) (s.ballY + s.ballSpeedY * dt) b) →
      (step mouseLeft mouseRight dt s).bricks = s.bricks ∧
        step mouseLeft mouseRight dt s =
          beforeBricks dt (processInput mouseLeft mouseRight dt s)) ∧
    (∀ (fs : List Frame) (t : GameState), noOverlapAlong fs t →
      (run fs t).bricks = t.bricks) := by
  refine ⟨?_, ?_, run_bricks_of_noOverlap⟩
  · intro hhit
    obtain ⟨pre, b, post, hbs, hpre, hb, hloop⟩ :=
      brickLoop_hit _ _ s.bricks
        (beforeBricks dt (processInput mouseLeft mouseRight dt s)).ballSpeedY hhit
    refine ⟨pre, b, post, hbs, hpre, hb, ?_⟩
    rw [step_of_playing mouseLeft mouseRight dt s hplay]
    simp [brickCollisions, beforeBricks_ballX, beforeBricks_ballY, beforeBricks_bricks, hloop]
  · intro hmiss
    have hstep := step_of_miss mouseLeft mouseRight dt s hplay hmiss
    refine ⟨?_, hstep⟩
    rw [hstep, beforeBricks_bricks]
    rfl

/-! ## The initial grid -/

theorem initBricks_eq :
    initBricks = (List.range 20).map (fun i => mkBrick (i / 10) (i % 10)) := by
  rfl

theorem initBricks_getElem? (i : Nat) (b : Brick) (h : initBricks[i]? = some b) :
    i < 20 ∧ b = mkBrick (i / 10) (i % 10) := by
  rw [initBricks_eq, List.getElem?_map] at h
  by_cases hi : i < 20
  · rw [List.getElem?_range hi] at h
    simp only [Option.map_some', Option.some.injEq] at h
    exact ⟨hi, h.symm⟩
  · have : (List.range 20)[i]? = none := by
      apply List.getElem?_eq_none
      simpa using hi
    rw [this] at h
    simp at h

theorem nat_eq_of_cast_close (a b : Nat) (w e : ℚ) (hw : 0 < w) (he : e ≤ w)
    (h1 : (a : ℚ) * w - (b : ℚ) * w < e) (h2 : (b : ℚ) * w - (a : ℚ) * w < e) : a = b := by
  rcases Nat.lt_trichotomy a b with hlt | heq | hgt
  · have : (a : ℚ) + 1 ≤ (b : ℚ) := by exact_mod_cast hlt
    nlinarith
  · exact heq
  · have : (b : ℚ) + 1 ≤ (a : ℚ) := by exact_mod_cast hgt
    nlinarith

theorem mkBrick_disjoint (x y : ℚ) (r1 c1 r2 c2 : Nat)
    (h1 : inBox x y (mkBrick r1 c1)) (h2 : inBox x y (mkBrick r2 c2)) :
    r1 = r2 ∧ c1 = c2 := by
  simp only [inBox, mkBrick] at h1 h2
  obtain ⟨a1, a2, a3, a4⟩ := h1
  obtain ⟨b1, b2, b3, b4⟩ := h2
  constructor
  · apply nat_eq_of_cast_close r1 r2 0.15 0.10 (by norm_num) (by norm_num)
    · norm_num at *; linarith
    · norm_num at *; linarith
  · apply nat_eq_of_cast_close c1 c2 0.18 0.16 (by norm_num) (by norm_num)
    · norm_num at *; linarith
    · norm_num at *; linarith

theorem initBricks_disjoint (x y : ℚ) (i j : Nat) (bi bj : Brick)
    (hi : initBricks[i]? = some bi) (hj : initBricks[j]? = some bj)
    (hbi : inBox x y bi) (hbj : inBox x y bj) : i = j := by
  obtain ⟨_, rfl⟩ := initBricks_getElem? i bi hi
  obtain ⟨_, rfl⟩ := initBricks_getElem? j bj hj
  obtain ⟨hr, hc⟩ := mkBrick_disjoint x y _ _ _ _ hbi hbj
  omega

theorem inBox_congr_centre (x y : ℚ) (b c : Brick) (h : centre b = centre c) :
    inBox x y b ↔ inBox x y c := by
  simp only [centre, Prod.mk.injEq] at h
  simp [inBox, h.1, h.2]

theorem step_centres (l r : Bool) (dt : ℚ) (s : GameState) :
    (step l r dt s).bricks.map centre = s.bricks.map centre := by
  rcases step_bricks_cases l r dt s with h | ⟨pre, b, post, hbs, _, h⟩
  · rw [h]
  · rw [h, hbs]
    simp [centre]

theorem run_centres (fs : List Frame) (s : GameState) :
    (run fs s).bricks.map centre = s.bricks.map centre := by
  induction fs generalizing s with
  | nil => rfl
  | cons f fs ih => rw [run, ih, step_centres]

/-- C10: the initialisation creates exactly 20 bricks, all alive, the brick of row `row`
and column `col` at index `row * 10 + col` with centre
`(-0.9 + col * 0.18, 0.8 - row * 0.15)`; every point lies in at most one of the 20 open
boxes; and in every state of a game started from this grid the boxes of the brick list
are still pairwise disjoint, so a frame never has a second brick for the `break` to
suppress. -/
theorem C10_initial_grid_boxes_disjoint :
    initBricks.length = 20 ∧
    (∀ b ∈ initBricks, b.alive = true) ∧
    (∀ row col : Nat, row < 2 → col < 10 →
      ∃ b, initBricks[row * 10 + col]? = some b ∧
        b.x = -0.9 + (col : ℚ) * 0.18 ∧ b.y = 0.8 - (row : ℚ) * 0.15 ∧ b.alive = true) ∧
    (∀ (x y : ℚ) (i j : Nat) (bi bj : Brick),
      initBricks[i]? = some bi → initBricks[j]? = some bj →
        inBox x y bi → inBox x y bj → i = j) ∧
    (∀ (fs : List Frame) (x y : ℚ) (i j : Nat) (bi bj : Brick),
      (run fs initState).bricks[i]? = some bi → (run fs initState).bricks[j]? = some bj →
        inBox x y bi → inBox x y bj → i = j) := by
  refine ⟨by decide, ?_, ?_, initBricks_disjoint, ?_⟩
  · intro b hb
    obtain ⟨i, hi⟩ := List.getElem?_of_mem hb
    obtain ⟨_, rfl⟩ := initBricks_getElem? i b hi
    rfl
  · intro row col hrow hcol
    refine ⟨mkBrick row col, ?_, rfl, rfl, rfl⟩
    rw [initBricks_eq, List.getElem?_map, List.getElem?_range (by omega)]
    have h1 : (row * 10 + col) / 10 = row := by omega
    have h2 : (row * 10 + col) % 10 = col := by omega
    simp [h1, h2]
  · intro fs x y i j bi bj hi hj hbi hbj
    have hc : (run fs initState).bricks.map centre = initBricks.map centre :=
      run_centres fs initState
    have key : ∀ (k : Nat) (bk : Brick), (run fs initState).bricks[k]? = some bk →
        ∃ ck, initBricks[k]? = some ck ∧ centre ck = centre bk := by
      intro k bk hk
      have : (initBricks.map centre)[k]? = some (centre bk) := by
        rw [← hc, List.getElem?_map, hk]; rfl
      rw [List.getElem?_map] at this
      exact Option.map_eq_some'.mp this
    obtain ⟨ci, hci, hcei⟩ := key i bi hi
    obtain ⟨cj, hcj, hcej⟩ := key j bj hj
    exact initBricks_disjoint x y i j ci cj hci hcj
      ((inBox_congr_centre x y ci bi hcei).mpr hbi) ((inBox_congr_centre x y cj bj hcej).mpr hbj)

/-! ## The floor -/

theorem initBricks_miss_low (x y : ℚ) (hy : y ≤ 0.6) :
    ∀ b ∈ initBricks, ¬ brickHit x y b := by
  intro b hb hhit
  obtain ⟨i, hi⟩ := List.getElem?_of_mem hb
  obtain ⟨hlt, rfl⟩ := initBricks_getElem? i b hi
  have hrow : ((i / 10 : Nat) : ℚ) ≤ 1 := by
    have : i / 10 ≤ 1 := by omega
    exact_mod_cast this
  obtain ⟨_, _, _, h3, _⟩ := hhit
  simp only [mkBrick] at h3
  norm_num at h3 hy
  linarith

theorem run_of_gameOver (fs : List Frame) (s : GameState) (h : s.gameOver = true) :
    run fs s = { s with paddleX := (run fs s).paddleX } := by
  induction fs generalizing s with
  | nil => rfl
  | cons f fs ih =>
    have hstep := step_of_gameOver f.mouseLeft f.mouseRight f.deltaTime s h
    have hover : (step f.mouseLeft f.mouseRight f.deltaTime s).gameOver = true := by
      rw [hstep]; exact h
    rw [run, ih _ hover, hstep]
    rfl

theorem floorState_step :
    step false true 0.02 floorState =
      { floorState with paddleX := 0.024, ballY := -0.955, ballSpeedX := 0.2968,
                        ballSpeedY := 0, hitCount := 1, gameOver := true } := by
  rw [step_of_miss false true 0.02 floorState rfl
    (initBricks_miss_low _ _ (by norm_num [floorState]))]
  norm_num [beforeBricks, paddleCollision, paddleHit, groundCollision, wallCollisions,
    updateBall, processInput, floorState, paddleWidth, paddleSpeed, ballRadius,
    SPEED_INCREASE_FACTOR, wrapInt32]

/-- C1, evaluated at a frame in which the ball reaches the floor inside the paddle's
x-range: the floor check sets `gameOver` and zeroes the velocity, and the paddle collision
of the same frame then writes `ballSpeedX = 0.2968` and increments `hitCount`; the velocity
is `(0.2968, 0)` in the state this frame leaves and in every later state. -/
theorem C1_floor_frame_velocity_not_zero :
    floorState.gameOver = false ∧
    floorState.ballY + floorState.ballSpeedY * 0.02 - ballRadius ≤ -1.0 ∧
    (step false true 0.02 floorState).gameOver = true ∧
    (step false true 0.02 floorState).ballSpeedX = 0.2968 ∧
    (step false true 0.02 floorState).ballSpeedY = 0 ∧
    (step false true 0.02 floorState).hitCount = 1 ∧
    (∀ fs : List Frame,
      (run fs (step false true 0.02 floorState)).gameOver = true ∧
      (run fs (step false true 0.02 floorState)).ballSpeedX = 0.2968 ∧
      (run fs (step false true 0.02 floorState)).ballSpeedY = 0) := by
  refine ⟨rfl, by norm_num [floorState, ballRadius], ?_, ?_, ?_, ?_, ?_⟩
  · rw [floorState_step]
  · rw [floorState_step]
  · rw [floorState_step]
  · rw [floorState_step]
  · intro fs
    have h := run_of_gameOver fs (step false true 0.02 floorState)
      (by rw [floorState_step])
    rw [h]
    simp only
    rw [floorState_step]
    exact ⟨rfl, rfl, rfl⟩

/-! ## The walls -/

theorem leavingWallState_step :
    (step false false 0.05 leavingWallState).ballSpeedX = 0.5 := by
  rw [step_of_miss false false 0.05 leavingWallState rfl
    (initBricks_miss_low _ _ (by norm_num [leavingWallState]))]
  norm_num [beforeBricks, paddleCollision, paddleHit, groundCollision, wallCollisions,
    updateBall, processInput, leavingWallState, paddleWidth, paddleSpeed, ballRadius,
    SPEED_INCREASE_FACTOR, wrapInt32]

theorem wallFloorState_step :
    (step false false 0.02 wallFloorState).ballSpeedX = 0 := by
  rw [step_of_miss false false 0.02 wallFloorState rfl
    (initBricks_miss_low _ _ (by norm_num [wallFloorState]))]
  norm_num [beforeBricks, paddleCollision, paddleHit, groundCollision, wallCollisions,
    updateBall, processInput, wallFloorState, paddleWidth, paddleSpeed, ballRadius,
    SPEED_INCREASE_FACTOR, wrapInt32]

theorem wallPaddleState_step :
    (step false false 0.05 wallPaddleState).ballSpeedX = -0.252 := by
  rw [step_of_miss false false 0.05 wallPaddleState rfl
    (initBricks_miss_low _ _ (by norm_num [wallPaddleState]))]
  norm_num [beforeBricks, paddleCollision, paddleHit, groundCollision, wallCollisions,
    updateBall, processInput, wallPaddleState, paddleWidth, paddleSpeed, ballRadius,
    SPEED_INCREASE_FACTOR, wrapInt32]

/-- C6 fails as stated, at three states that are not over and enter the step with
`ballX < -0.95` or `ballX > 0.95`: a ball leaving the wall is tested after its motion and
keeps its `ballSpeedX`; a ball that reaches the floor ends with `ballSpeedX = 0`; a ball
that hits the paddle ends with the `ballSpeedX` the paddle sets. -/
theorem C6_counterexample_wall_reflection :
    (leavingWallState.gameOver = false ∧
      (leavingWallState.ballX < -0.95 ∨ leavingWallState.ballX > 0.95) ∧
      (step false false 0.05 leavingWallState).ballSpeedX ≠ -leavingWallState.ballSpeedX) ∧
    (wallFloorState.gameOver = false ∧
      (wallFloorState.ballX < -0.95 ∨ wallFloorState.ballX > 0.95) ∧
      (step false false 0.02 wallFloorState).ballSpeedX ≠ -wallFloorState.ballSpeedX) ∧
    (wallPaddleState.gameOver = false ∧
      (wallPaddleState.ballX < -0.95 ∨ wallPaddleState.ballX > 0.95) ∧
      (step false false 0.05 wallPaddleState).ballSpeedX ≠ -wallPaddleState.ballSpeedX) := by
  refine ⟨⟨rfl, ?_, ?_⟩, ⟨rfl, ?_, ?_⟩, ⟨rfl, ?_, ?_⟩⟩
  · norm_num [leavingWallState]
  · rw [leavingWallState_step]; norm_num [leavingWallState]
  · norm_num [wallFloorState]
  · rw [wallFloorState_step]; norm_num [wallFloorState]
  · norm_num [wallPaddleState]
  · rw [wallPaddleState_step]; norm_num [wallPaddleState]

/-- C6, amended: in a state that is not over, if the ball position after the step's
motion has `ballX < -0.95` or `ballX > 0.95`, and at that position neither the floor
condition nor the paddle collision holds, then `ballSpeedX` after the step is the negation
of `ballSpeedX` before the step. -/
theorem C6_wall_reflection_after_motion (mouseLeft mouseRight : Bool) (dt : ℚ)
    (s : GameState) (hplay : s.gameOver = false)
    (hwall : s.ballX + s.ballSpeedX * dt < -0.95 ∨ s.ballX + s.ballSpeedX * dt > 0.95)
    (hfloor : ¬ (s.ballY + s.ballSpeedY * dt - ballRadius ≤ -1.0))
    (hpaddle : ¬ paddleHit (updateBall dt (processInput mouseLeft mouseRight dt s))) :
    (step mouseLeft mouseRight dt s).ballSpeedX = -s.ballSpeedX := by
  rw [step_of_playing mouseLeft mouseRight dt s hplay, brickCollisions_ballSpeedX]
  have hp : ¬ paddleHit (groundCollision (wallCollisions
      (updateBall dt (processInput mouseLeft mouseRight dt s)))) := by
    intro h
    apply hpaddle
    simpa [paddleHit, groundCollision_ballX, groundCollision_ballY, groundCollision_paddleX,
      wallCollisions] using h
  simp only [beforeBricks, paddleCollision, hp, if_false]
  simp only [groundCollision, wallCollisions, updateBall, processInput_ballY,
    processInput_ballSpeedY, processInput_ballX, processInput_ballSpeedX, hfloor, if_false,
    hwall, if_true]
  ring

/-- Witness of C6 (amended): a ball crossing the right wall line in mid-air. -/
theorem C6_wall_reflection_witness :
    wallHitState.gameOver = false ∧
    wallHitState.ballX + wallHitState.ballSpeedX * 0.05 > 0.95 ∧
    (step false false 0.05 wallHitState).ballSpeedX = -0.5 := by
  have h := C6_wall_reflection_after_motion false false 0.05 wallHitState rfl
    (by norm_num [wallHitState]) (by norm_num [wallHitState, ballRadius])
    (by norm_num [paddleHit, updateBall, processInput, wallHitState])
  refine ⟨rfl, by norm_num [wallHitState], ?_⟩
  rw [h]; norm_num [wallHitState]

/-! ## The paddle collision -/

theorem wrapInt32_succ (n : Int) (h : -2147483648 ≤ n ∧ n < 2147483647) :
    wrapInt32 (n + 1) = n + 1 := by
  unfold wrapInt32
  omega

theorem slidingState_step :
    (step false false 0.2 slidingState).ballSpeedY = 0 := by
  rw [step_of_miss false false 0.2 slidingState rfl
    (initBricks_miss_low _ _ (by norm_num [slidingState]))]
  norm_num [beforeBricks, paddleCollision, paddleHit, groundCollision, wallCollisions,
    updateBall, processInput, slidingState, paddleWidth, paddleSpeed, ballRadius,
    SPEED_INCREASE_FACTOR, wrapInt32]

theorem initBricks_not_inBox_low (x y : ℚ) (hy : y ≤ 0.6) :
    ∀ b ∈ initBricks, ¬ inBox x y b := by
  intro b hb hin
  obtain ⟨i, hi⟩ := List.getElem?_of_mem hb
  obtain ⟨_, rfl⟩ := initBricks_getElem? i b hi
  exact initBricks_miss_low x y hy _ hb ⟨rfl, hin⟩

/-- C3 fails as stated, at two states that are not over, in which the paddle collision
fires and no brick box contains the ball: a ball with `ballSpeedY = 0` leaves the paddle
with `ballSpeedY = 0`, not `> 0`; and a ball that reaches the floor inside the paddle's
x-range has its velocity zeroed before the paddle collision, so it ends with
`ballSpeedY = 0`, neither `|ballSpeedY| * 1.40` nor `> 0`. -/
theorem C3_counterexample_vy_not_positive :
    (slidingState.gameOver = false ∧
      paddleHit (updateBall 0.2 (processInput false false 0.2 slidingState)) ∧
      (∀ b ∈ slidingState.bricks,
        ¬ inBox (slidingState.ballX + slidingState.ballSpeedX * 0.2)
          (slidingState.ballY + slidingState.ballSpeedY * 0.2) b) ∧
      ¬ (0 < (step false false 0.2 slidingState).ballSpeedY)) ∧
    (floorState.gameOver = false ∧
      paddleHit (updateBall 0.02 (processInput false true 0.02 floorState)) ∧
      (∀ b ∈ floorState.bricks,
        ¬ inBox (floorState.ballX + floorState.ballSpeedX * 0.02)
          (floorState.ballY + floorState.ballSpeedY * 0.02) b) ∧
      ¬ (0 < (step false true 0.02 floorState).ballSpeedY) ∧
      (step false true 0.02 floorState).ballSpeedY ≠
        |floorState.ballSpeedY| * SPEED_INCREASE_FACTOR) := by
  refine ⟨⟨rfl, ?_, ?_, ?_⟩, ⟨rfl, ?_, ?_, ?_, ?_⟩⟩
  · norm_num [paddleHit, updateBall, processInput, slidingState, paddleWidth, paddleSpeed]
  · exact initBricks_not_inBox_low _ _ (by norm_num [slidingState])
  · rw [slidingState_step]; norm_num
  · norm_num [paddleHit, updateBall, processInput, floorState, paddleWidth, paddleSpeed]
  · exact initBricks_not_inBox_low _ _ (by norm_num [floorState])
  · rw [floorState_step]; norm_num
  · rw [floorState_step]; norm_num [floorState, SPEED_INCREASE_FACTOR, abs_of_neg]

/-- C3, amended: in a state that is not over, with `hitCount` an `int` below `INT_MAX`,
if the paddle collision fires at the ball position after the motion (against the paddle
position already updated in this step), the floor condition does not hold there and no
alive brick's box contains the ball, then the step increments `hitCount` by exactly 1 and
sets `ballSpeedX` to `(ballX - paddleX) * 2.0` and `ballSpeedY` to `|ballSpeedY|`, both
multiplied by `1.40` when the new `hitCount` is at most 10 and not multiplied when it is
at least 11. The resulting `ballSpeedY` is `≥ 0`, and `> 0` when `ballSpeedY` was not `0`. -/
theorem C3_paddle_hit_speed_escalation (mouseLeft mouseRight : Bool) (dt : ℚ)
    (s : GameState) (hplay : s.gameOver = false)
    (hcount : -2147483648 ≤ s.hitCount ∧ s.hitCount < 2147483647)
    (hpaddle : paddleHit (updateBall dt (processInput mouseLeft mouseRight dt s)))
    (hfloor : ¬ (s.ballY + s.ballSpeedY * dt - ballRadius ≤ -1.0))
    (hbricks : ∀ b ∈ s.bricks,
      ¬ brickHit (s.ballX + s.ballSpeedX * dt) (s.ballY + s.ballSpeedY * dt) b) :
    (step mouseLeft mouseRight dt s).hitCount = s.hitCount + 1 ∧
    (s.hitCount + 1 ≤ 10 →
      (step mouseLeft mouseRight dt s).ballSpeedX =
          (s.ballX + s.ballSpeedX * dt - (processInput mouseLeft mouseRight dt s).paddleX)
            * 2.0 * 1.40 ∧
        (step mouseLeft mouseRight dt s).ballSpeedY = |s.ballSpeedY| * 1.40) ∧
    (11 ≤ s.hitCount + 1 →
      (step mouseLeft mouseRight dt s).ballSpeedX =
          (s.ballX + s.ballSpeedX * dt - (processInput mouseLeft mouseRight dt s).paddleX)
            * 2.0 ∧
        (step mouseLeft mouseRight dt s).ballSpeedY = |s.ballSpeedY|) ∧
    (step mouseLeft mouseRight dt s).ballX = s.ballX + s.ballSpeedX * dt ∧
    (step mouseLeft mouseRight dt s).paddleX =
      (processInput mouseLeft mouseRight dt s).paddleX ∧
    0 ≤ (step mouseLeft mouseRight dt s).ballSpeedY ∧
    (s.ballSpeedY ≠ 0 → 0 < (step mouseLeft mouseRight dt s).ballSpeedY) := by
  rw [step_of_miss mouseLeft mouseRight dt s hplay hbricks]
  have hy : ¬ (s.ballY + s.ballSpeedY * dt > 0.95) := by
    have := hpaddle.1
    simp only [updateBall, processInput_ballY, processInput_ballSpeedY] at this
    intro h
    norm_num at this h
    linarith
  have hg : groundCollision (wallCollisions
      (updateBall dt (processInput mouseLeft mouseRight dt s))) =
      wallCollisions (updateBall dt (processInput mouseLeft mouseRight dt s)) := by
    unfold groundCollision
    rw [if_neg]
    simpa [wallCollisions, updateBall] using hfloor
  have hp : paddleHit (wallCollisions
      (updateBall dt (processInput mouseLeft mouseRight dt s))) := by
    simpa [paddleHit, wallCollisions] using hpaddle
  have habs : (0 : ℚ) ≤ |s.ballSpeedY| := abs_nonneg _
  have hpos : s.ballSpeedY ≠ 0 → (0 : ℚ) < |s.ballSpeedY| := fun h => abs_pos.mpr h
  simp only [beforeBricks, hg, paddleCollision, hp, if_true]
  simp only [wallCollisions, updateBall, processInput_ballY, processInput_ballSpeedY,
    processInput_ballX, processInput_ballSpeedX, processInput_hitCount, hy, if_false,
    SPEED_INCREASE_FACTOR, wrapInt32_succ _ hcount]
  by_cases h10 : s.hitCount + 1 ≤ 10
  · simp only [h10, if_true]
    refine ⟨trivial, fun _ => ⟨trivial, trivial⟩, fun h11 => absurd h10 (by omega), trivial,
      trivial, by positivity, fun h => ?_⟩
    have := hpos h
    positivity
  · simp only [h10, if_false]
    exact ⟨trivial, fun h => False.elim h, fun _ => ⟨trivial, trivial⟩, trivial, trivial,
      habs, hpos⟩

/-- Witness of C3 (amended): the scenario of the specification. The ball at `(0.0, -0.79)`
falls at `-0.3` onto the paddle at `0.0`; the frame `dt = 0.1` takes it to `y = -0.82`,
below `-0.8` and above the floor, and leaves `ballSpeedY = 0.42`, `ballSpeedX = 0`,
`hitCount = 1`. -/
theorem C3_paddle_scenario_witness :
    paddleScenario.gameOver = false ∧
    paddleHit (updateBall 0.1 (processInput false false 0.1 paddleScenario)) ∧
    ¬ (paddleScenario.ballY + paddleScenario.ballSpeedY * 0.1 - ballRadius ≤ -1.0) ∧
    (step false false 0.1 paddleScenario).hitCount = 1 ∧
    (step false false 0.1 paddleScenario).ballSpeedY = 0.42 ∧
    (step false false 0.1 paddleScenario).ballSpeedX = 0 ∧
    0 < (step false false 0.1 paddleScenario).ballSpeedY := by
  have hp : paddleHit (updateBall 0.1 (processInput false false 0.1 paddleScenario)) := by
    norm_num [paddleHit, updateBall, processInput, paddleScenario, paddleWidth, paddleSpeed]
  have hf : ¬ (paddleScenario.ballY + paddleScenario.ballSpeedY * 0.1 - ballRadius ≤ -1.0) := by
    norm_num [paddleScenario, ballRadius]
  obtain ⟨h1, h2, _, _, _, _, h7⟩ :=
    C3_paddle_hit_speed_escalation false false 0.1 paddleScenario rfl
      (by norm_num [paddleScenario]) hp hf
      (initBricks_miss_low _ _ (by norm_num [paddleScenario]))
  obtain ⟨hx, hy⟩ := h2 (by norm_num [paddleScenario])
  refine ⟨rfl, hp, hf, ?_, ?_, ?_, h7 (by norm_num [paddleScenario])⟩
  · rw [h1]; norm_num [paddleScenario]
  · rw [hy]; norm_num [paddleScenario, abs_of_neg]
  · rw [hx]; norm_num [paddleScenario, processInput, paddleWidth]

/-- Witness of C7: the first frame of a game, `dt = 0.1`. -/
theorem C7_exact_euler_witness :
    initState.gameOver = false ∧ (0 : ℚ) ≤ 0.1 ∧
    (step false false 0.1 initState).ballX = 0.0288 ∧
    (step false false 0.1 initState).ballY = 0.0352 := by
  have h := (C7_exact_euler_position false false 0.1 initState rfl (by norm_num)).1
  refine ⟨rfl, by norm_num, ?_, ?_⟩
  · rw [h.1]; norm_num [initState]
  · rw [h.2]; norm_num [initState]

/-- Witness of C8: the ball rises into the box of the brick of row 1, column 5; the step
flips `ballSpeedY` and keeps `ballSpeedX`. -/
theorem C8_brick_scan_witness :
    brickState.gameOver = false ∧
    brickHit (brickState.ballX + brickState.ballSpeedX * 0.1)
      (brickState.ballY + brickState.ballSpeedY * 0.1) (mkBrick 1 5) ∧
    (step false false 0.1 brickState).ballSpeedY = -0.352 ∧
    (step false false 0.1 brickState).ballSpeedX = 0.288 := by
  have hmem : mkBrick 1 5 ∈ brickState.bricks := by
    show mkBrick 1 5 ∈ initBricks
    rw [initBricks_eq]
    exact List.mem_map.mpr ⟨15, by simp, rfl⟩
  have hhit : brickHit (brickState.ballX + brickState.ballSpeedX * 0.1)
      (brickState.ballY + brickState.ballSpeedY * 0.1) (mkBrick 1 5) := by
    norm_num [brickHit, inBox, mkBrick, brickState]
  obtain ⟨_, _, _, _, _, _, _, hvy, hvx, _, _⟩ :=
    (C8_brick_scan_first_match false false 0.1 brickState rfl).1 ⟨mkBrick 1 5, hmem, hhit⟩
  refine ⟨rfl, hhit, ?_, ?_⟩
  · rw [hvy]
    norm_num [beforeBricks, paddleCollision, paddleHit, groundCollision, wallCollisions,
      updateBall, processInput, brickState, paddleWidth, paddleSpeed, ballRadius]
  · rw [hvx]
    norm_num [beforeBricks, paddleCollision, paddleHit, groundCollision, wallCollisions,
      updateBall, processInput, brickState, paddleWidth, paddleSpeed, ballRadius]

/-- Witness of C9: a frame with the left button pressed in a game that is over moves the
paddle from `0.0` to `-0.12` and nothing else. -/
theorem C9_over_step_witness :
    overState.gameOver = true ∧
    step true false 0.1 overState = { overState with paddleX := -0.12 } := by
  have h := (C9_over_step_only_moves_paddle true false 0.1 overState rfl).1
  refine ⟨rfl, ?_⟩
  rw [h]
  norm_num [processInput, overState, paddleWidth, paddleSpeed]

end BrickBreaker
